import Mathlib

/-!
Verification of the wikipediacorpus library core: a shallow embedding of the
HTTP retry loop, pagination collectors, redirect resolution, rate limiter,
sparse matrix builders and seed-similarity computation, with theorems checking
the natural-language specification against the code.

Python floats for token counts, delays and in-degrees are modelled as `ℚ`
(cosine scores, which involve square roots, as `ℝ`); Python dicts as
insertion-ordered association lists; raised exceptions as `Except` errors.
The network transport is modelled by an explicit script of per-request
outcomes consumed in order.
-/

namespace WCorpus

/-- Errors raised by the library (`exceptions.py`), plus Python's built-in
`TypeError` which a dataclass constructor raises on an unexpected keyword
argument.  Human-readable message strings are elided; the discriminating
payloads (status code, API code/info, title/lang) are kept. -/
inductive PyErr where
  | api (code info : String)
  | pageNotFound (title lang : String)
  | http (status : Nat)
  | typeError (msg : String)
  | keyError (msg : String)
deriving DecidableEq

/-- One entry of a MediaWiki `query.pages` dict (`_http.py`, `_article.py`):
the fields the library reads.  `missing` models presence of the `"missing"`
key; the other fields are `None`/absent when the `Option` is `none`. -/
structure ApiPage where
  missing : Bool := false
  title? : Option String := none
  extract? : Option String := none
  length? : Option Nat := none
  pageid? : Option Int := none
deriving DecidableEq

/-- The `query` object of an API body, keeping the parts the HTTP layer
inspects.  `pages?` is the `pages` dict as its ordered list of values. -/
structure ApiQuery where
  pages? : Option (List ApiPage) := none
deriving DecidableEq

/-- The MediaWiki `error` envelope: `code` and `info` fields, each optional
(the code defaults them to `"unknown"` / `""`). -/
structure ApiErrObj where
  code? : Option String := none
  info? : Option String := none
deriving DecidableEq

/-- A parsed JSON response body as seen by `_check_api_response`. -/
structure ApiBody where
  error? : Option ApiErrObj := none
  query? : Option ApiQuery := none
deriving DecidableEq

/-- The `_http._check_http_response`: non-2xx statuses (>= 400) raise `HTTPError`
carrying the status code. -/
def _check_http_response (status : Nat) : Option PyErr :=
  if 400 ≤ status then some (.http status) else none

/-- The `_http._check_api_response`: an `error` object raises `APIError`; with
`check_missing`, a `"missing"` marker on the *first* entry of `query.pages`
raises `PageNotFoundError`.  (Python's `next(iter(pages.values()))` on an
empty dict would raise `StopIteration`; no caller produces an empty dict and
that path is left as "no error" here.) -/
def _check_api_response (data : ApiBody) (check_missing : Bool)
    (title? : Option String) (lang : String) : Option PyErr :=
  match data.error? with
  | some err => some (.api (err.code?.getD "unknown") (err.info?.getD ""))
  | none =>
    if check_missing then
      match data.query? with
      | some q =>
        match q.pages? with
        | some pages =>
          match pages.head? with
          | some page =>
            if page.missing then some (.pageNotFound (title?.getD "") lang) else none
          | none => none
        | none => none
      | none => none
    else none

/-- The transport-level outcome of one physical HTTP round trip in `api_get`:
either a transient connection exception (`httpx.ReadError` etc.) or a
response with a status code and parsed JSON body. -/
inductive Outcome where
  | transient
  | response (status : Nat) (body : ApiBody)
deriving DecidableEq

/-- The `_http._MAX_RETRIES`. -/
def MAX_RETRIES : Nat := 3

/-- The retry loop of `api_get` (`_http.py` lines 96-123).  `outcomes` is the
script of transport outcomes, consumed one per attempt; `attempt` is the loop
counter.  Returns the raised error or returned body together with the total
number of attempts performed.  Sleeping (backoff / Retry-After) does not
affect the result and is not modelled.  An exhausted script corresponds to
the unreachable "Unexpected retry loop exit". -/
def api_get_loop (check_missing : Bool) (title? : Option String) (lang : String) :
    List Outcome → Nat → Except PyErr ApiBody × Nat
  | [], attempt => (.error (.http 0), attempt)
  | o :: rest, attempt =>
    match o with
    | .transient =>
      if attempt == MAX_RETRIES then (.error (.http 0), attempt + 1)
      else api_get_loop check_missing title? lang rest (attempt + 1)
    | .response status body =>
      if status == 429 then
        if attempt == MAX_RETRIES then (.error (.http 429), attempt + 1)
        else api_get_loop check_missing title? lang rest (attempt + 1)
      else
        match _check_http_response status with
        | some e => (.error e, attempt + 1)
        | none =>
          match _check_api_response body check_missing title? lang with
          | some e => (.error e, attempt + 1)
          | none => (.ok body, attempt + 1)

/-- The `_http.api_get`: run the retry loop from attempt 0. -/
def api_get (outcomes : List Outcome) (check_missing : Bool := false)
    (title? : Option String := none) (lang : String := "en") :
    Except PyErr ApiBody × Nat :=
  api_get_loop check_missing title? lang outcomes 0

/-- The retry loop of `api_get_async` (`_http.py` lines 146-173), textually
identical to the sync loop except for the suspension mechanism. -/
def api_get_async_loop (check_missing : Bool) (title? : Option String) (lang : String) :
    List Outcome → Nat → Except PyErr ApiBody × Nat
  | [], attempt => (.error (.http 0), attempt)
  | o :: rest, attempt =>
    match o with
    | .transient =>
      if attempt == MAX_RETRIES then (.error (.http 0), attempt + 1)
      else api_get_async_loop check_missing title? lang rest (attempt + 1)
    | .response status body =>
      if status == 429 then
        if attempt == MAX_RETRIES then (.error (.http 429), attempt + 1)
        else api_get_async_loop check_missing title? lang rest (attempt + 1)
      else
        match _check_http_response status with
        | some e => (.error e, attempt + 1)
        | none =>
          match _check_api_response body check_missing title? lang with
          | some e => (.error e, attempt + 1)
          | none => (.ok body, attempt + 1)

/-- The `_http.api_get_async`. -/
def api_get_async (outcomes : List Outcome) (check_missing : Bool := false)
    (title? : Option String := none) (lang : String := "en") :
    Except PyErr ApiBody × Nat :=
  api_get_async_loop check_missing title? lang outcomes 0

/-- Whether an outcome is retried by the loop: a transient failure or an
HTTP 429 response. -/
def Outcome.retryable : Outcome → Bool
  | .transient => true
  | .response status _ => status == 429

/-- The error `api_get` raises when its final (4th) attempt sees this
retryable outcome: status 0 for a transient failure, 429 for rate limiting. -/
def Outcome.exhaustionError : Outcome → PyErr
  | .transient => .http 0
  | .response _ _ => .http 429

/-! ## Python dicts as insertion-ordered association lists -/

/-- Python `dict.get`: the binding of the key, if any (an insertion-built
dict binds each key at most once, so the first match is the binding). -/
def dict_get {β : Type} : List (String × β) → String → Option β
  | [], _ => none
  | (k, v) :: m, t => if k = t then some v else dict_get m t

/-- Python `d[k] = v` on an insertion-ordered dict: replace an existing
binding in place, else append the new binding. -/
def dict_insert {β : Type} (m : List (String × β)) (k : String) (v : β) :
    List (String × β) :=
  if m.any (fun p => decide (p.1 = k)) then
    m.map (fun p => if p.1 = k then (k, v) else p)
  else m ++ [(k, v)]

/-! ## Article fetching (`api/_article.py`, `models.py`) -/

/-- The `models.Article`, exactly the four fields declared in `models.py`
(lines 26-33).  Note it does *not* declare `possibly_truncated` or
`wikitext_length`. -/
structure Article where
  title : String
  text : String
  pageid : Int
  lang : String
deriving DecidableEq

/-- The field names of the `Article` dataclass in `models.py`. -/
def Article_fields : List String := ["title", "text", "pageid", "lang"]

/-- The keyword-argument names `_parse_article` passes to `Article(...)`
(`api/_article.py` lines 50-57). -/
def Article_call_kwargs : List String :=
  ["title", "text", "pageid", "lang", "possibly_truncated", "wikitext_length"]

/-- Python dataclass construction: succeeds only when every keyword argument
names a declared field, else raises
`TypeError: __init__() got an unexpected keyword argument ...`. -/
def Article_init (kwargs : List String) (a : Article) : Except PyErr Article :=
  if kwargs.all (fun k => decide (k ∈ Article_fields)) then .ok a
  else .error (.typeError "Article unexpected keyword argument")

/-- The truncation heuristic computed inside `_parse_article` (lines 38-42):
a trailing `"..."`, or extract length below 50% of the reported wikitext
length.  Over exact arithmetic `len(text) < wikitext_length * 0.5` is
`2 * len(text) < wikitext_length` (the float product is exact for API-sized
ints). -/
def truncation_flag (text : String) (wikitext_length : Option Nat) : Bool :=
  if text.endsWith "..." then true
  else
    match wikitext_length with
    | some l => if 0 < l ∧ 2 * text.length < l then true else false
    | none => false

/-- The `api/_article.py _parse_article` (lines 30-57): take the first entry of
`query.pages`, compute the truncation flag, and construct `Article(...)`
passing `possibly_truncated` and `wikitext_length` keyword arguments.  The
`Article` dataclass in `models.py` does not declare those fields, so the
construction raises `TypeError` and the computed flag is discarded.  An
absent `query`/`pages` raises `KeyError` in Python; `next(iter({}))` raises
`StopIteration`. -/
def _parse_article (data : ApiBody) (title lang : String) : Except PyErr Article :=
  match data.query? with
  | none => .error (.keyError "query")
  | some q =>
    match q.pages? with
    | none => .error (.keyError "pages")
    | some pages =>
      match pages.head? with
      | none => .error (.keyError "StopIteration")
      | some page =>
        let text := (page.extract?).getD ""
        let _possibly_truncated := truncation_flag text page.length?
        Article_init Article_call_kwargs
          { title := (page.title?).getD title
            text := text
            pageid := (page.pageid?).getD (-1)
            lang := lang }

/-- The `api/_article.py get_article` / `get_article_async`: `api_get` with
`check_missing=True` and the requested title, then `_parse_article`.
`outcomes` is the transport script for this title's request. -/
def get_article (outcomes : List Outcome) (title lang : String) : Except PyErr Article :=
  match (api_get outcomes true (some title) lang).1 with
  | .error e => .error e
  | .ok data => _parse_article data title lang

/-- The `ArticleBatch` as used by `api/_article.py` and asserted by
`tests/test_models.py`.  `models.py` does not define `ArticleBatch` at all
(importing it raises `ImportError`); this structure follows the shape the
code and the repository's tests use, so the batch orchestration can still be
stated. -/
structure ArticleBatch where
  articles : List Article
  missing : List String
deriving DecidableEq

/-- The per-title loop of `_get_articles_async_impl` (`api/_article.py`
lines 119-145), sequentialized in submission order: a `PageNotFoundError`
outcome for one title is recorded in `missing`; any other error propagates
and aborts the whole batch; a fetched article joins the success list. -/
def get_articles_go (fetch : String → List Outcome) (lang : String) :
    List String → List Article → List String → Except PyErr ArticleBatch
  | [], arts, miss => .ok ⟨arts, miss⟩
  | t :: ts, arts, miss =>
    match get_article (fetch t) t lang with
    | .ok a => get_articles_go fetch lang ts (arts ++ [a]) miss
    | .error (.pageNotFound _ _) => get_articles_go fetch lang ts arts (miss ++ [t])
    | .error e => .error e

/-- The `api/_article.py _get_articles_async_impl`: fetch each title (the
transport script for a title is `fetch title`) and collect successes and
missing titles. -/
def _get_articles_async_impl (fetch : String → List Outcome) (titles : List String)
    (lang : String) : Except PyErr ArticleBatch :=
  get_articles_go fetch lang titles [] []

/-! ## Paginated collectors (`api/_category.py`, `api/_links.py`) -/

/-- The loop guard `"continue" in data and KEY in data["continue"]`. -/
def cont_wants_more (cont? : Option (List (String × String))) (key : String) : Bool :=
  match cont? with
  | some blk => (dict_get blk key).isSome
  | none => false

/-- The generic "fetch until the continuation key disappears" loop body
shared by every list endpoint (`_category.py` lines 90-93, `_links.py` lines
90-93, `_redirects.py` lines 255-258): while the previous response's
`continue` block contains `key`, consume the next response and append its
items.  `none` models a transport script exhausted while a continuation was
still requested. -/
def paginate_loop {σ α : Type} (contOf : σ → Option (List (String × String)))
    (parse : σ → List α) (key : String) : List σ → σ → Option (List α)
  | [], data => if cont_wants_more (contOf data) key then none else some []
  | r :: rs, data =>
    if cont_wants_more (contOf data) key then
      (paginate_loop contOf parse key rs r).map (fun tl => parse r ++ tl)
    else some []

/-- The `models.CategoryMember`. -/
structure CategoryMember where
  pageid : Int
  ns : Int
  title : String
deriving DecidableEq

/-- A response body for the `categorymembers` endpoint: the
`query.categorymembers` item list (absent as `none`) and the top-level
`continue` block as an ordered dict. -/
structure CatBody where
  categorymembers : Option (List CategoryMember) := none
  cont : Option (List (String × String)) := none
deriving DecidableEq

/-- The `api/_category.py _parse_members`: `data.get("query", {}).get("categorymembers", [])`. -/
def _parse_members (data : CatBody) : List CategoryMember :=
  data.categorymembers.getD []

/-- The `api/_category.py get_category_members` (lines 84-95): first fetch, then
the `cmcontinue` loop.  `responses` is the transport script; `none` means the
script ran out while the loop still wanted a page. -/
def get_category_members (responses : List CatBody) : Option (List CategoryMember) :=
  match responses with
  | [] => none
  | r :: rest =>
    (paginate_loop CatBody.cont _parse_members "cmcontinue" rest r).map
      (fun tl => _parse_members r ++ tl)

/-- The `models.WikiLink`. -/
structure WikiLink where
  pageid : Int
  ns : Int
  title : String
deriving DecidableEq

/-- The `models.LinkDirection`. -/
inductive LinkDirection where
  | incoming
  | outgoing
deriving DecidableEq

/-- One entry of `query.pages` for the links endpoints, with its optional
`links` / `linkshere` lists. -/
structure LinkPage where
  links : Option (List WikiLink) := none
  linkshere : Option (List WikiLink) := none
deriving DecidableEq

/-- A response body for the links endpoints. -/
structure LinkBody where
  pages : Option (List LinkPage) := none
  cont : Option (List (String × String)) := none
deriving DecidableEq

/-- The `api/_links.py _parse_links`: the first entry of `query.pages`, then its
`linkshere` (incoming) or `links` (outgoing) list, defaulted to `[]`.  (An
absent or empty `pages` dict would raise in Python; parsed as `[]` here, a
path no claim exercises.) -/
def _parse_links (data : LinkBody) (dir : LinkDirection) : List WikiLink :=
  match data.pages with
  | some (p :: _) =>
    (match dir with
     | .incoming => p.linkshere
     | .outgoing => p.links).getD []
  | _ => []

/-- The endpoint-specific continuation key chosen in `get_links` (line 89). -/
def continue_key : LinkDirection → String
  | .incoming => "lhcontinue"
  | .outgoing => "plcontinue"

/-- The `api/_links.py get_links` (lines 86-95): first fetch, then the
`lhcontinue`/`plcontinue` loop. -/
def get_links (dir : LinkDirection) (responses : List LinkBody) : Option (List WikiLink) :=
  match responses with
  | [] => none
  | r :: rest =>
    (paginate_loop LinkBody.cont (fun b => _parse_links b dir) (continue_key dir) rest r).map
      (fun tl => _parse_links r dir ++ tl)

/-! ## Rate limiter (`_rate_limiter.py`) -/

/-- The constructor parameters of `RateLimiter` (`rate` tokens/second,
`burst` capacity; defaults 50.0 and 10). -/
structure RateLimiter where
  rate : ℚ
  burst : ℚ
deriving DecidableEq

/-- The mutable bucket state: the current token count and the
`time.monotonic()` reading of the last refill. -/
structure RLState where
  tokens : ℚ
  last_refill : ℚ
deriving DecidableEq

/-- The `RateLimiter._refill` executed at clock reading `now`. -/
def _refill (cfg : RateLimiter) (s : RLState) (now : ℚ) : RLState :=
  { tokens := min cfg.burst (s.tokens + (now - s.last_refill) * cfg.rate)
    last_refill := now }

/-- The `RateLimiter.acquire` (lines 33-41): repeatedly refill at the successive
clock readings `ts` until at least one token is available, then consume one.
Returns the last state reached (the post-refill state on success) and, on
success, the post-consumption state; `none` in the second component means
the clock script ran out while still waiting.  The sleep duration only
influences the next clock reading and is not itself modelled. -/
def acquire (cfg : RateLimiter) : List ℚ → RLState → RLState × Option RLState
  | [], s => (s, none)
  | now :: ts, s =>
    let s' := _refill cfg s now
    if 1 ≤ s'.tokens then
      (s', some { tokens := s'.tokens - 1, last_refill := s'.last_refill })
    else acquire cfg ts s'

/-- The `RateLimiter.acquire_async` (lines 43-52): identical bucket logic; the
async lock serializes waiters and does not change the single-caller
behaviour. -/
def acquire_async (cfg : RateLimiter) : List ℚ → RLState → RLState × Option RLState
  | [], s => (s, none)
  | now :: ts, s =>
    let s' := _refill cfg s now
    if 1 ≤ s'.tokens then
      (s', some { tokens := s'.tokens - 1, last_refill := s'.last_refill })
    else acquire_async cfg ts s'

/-- The bucket invariant: tokens never negative, never above capacity. -/
def RLInv (cfg : RateLimiter) (s : RLState) : Prop :=
  0 ≤ s.tokens ∧ s.tokens ≤ cfg.burst

/-- Monotone clock readings starting from `t0` (`time.monotonic` never goes
backwards). -/
def TimesOK : ℚ → List ℚ → Prop
  | _, [] => True
  | t0, t :: ts => t0 ≤ t ∧ TimesOK t ts

/-- The primitive state changes the limiter performs: a refill at a clock
reading not before the previous one, or consumption of one available token.
Any interleaving of `acquire`/`acquire_async` calls is a chain of these. -/
inductive RLStep (cfg : RateLimiter) : RLState → RLState → Prop
  | refill (s : RLState) (now : ℚ) (h : s.last_refill ≤ now) :
      RLStep cfg s (_refill cfg s now)
  | consume (s : RLState) (h : 1 ≤ s.tokens) :
      RLStep cfg s { tokens := s.tokens - 1, last_refill := s.last_refill }

/-! ## Redirect resolution (`api/_redirects.py`) -/

/-- One entry of a response's `redirects` (or `normalized`) list: a
`from`/`to` pair (`from` is a Lean keyword, hence `fromTitle`/`toTitle`). -/
structure Redirect where
  fromTitle : String
  toTitle : String
deriving DecidableEq

/-- The parts of a batch-redirect response body read by
`_parse_batch_redirects`: `query.redirects` and `query.normalized`, both
defaulting to empty lists. -/
structure BatchRedirectData where
  redirects : List Redirect := []
  normalized : List Redirect := []
deriving DecidableEq

/-- The `redirect_map` dict built at `_redirects.py` lines 100-102. -/
def redirect_map_of (data : BatchRedirectData) : List (String × String) :=
  data.redirects.foldl (fun m r => dict_insert m r.fromTitle r.toTitle) []

/-- The `normalize_map` dict built at lines 105-107. -/
def normalize_map_of (data : BatchRedirectData) : List (String × String) :=
  data.normalized.foldl (fun m r => dict_insert m r.fromTitle r.toTitle) []

/-- The `canonical = normalize_map.get(title, title)` (line 111). -/
def canonical_of (data : BatchRedirectData) (title : String) : String :=
  (dict_get (normalize_map_of data) title).getD title

/-- The chain chase `while destination in redirect_map: destination =
redirect_map[destination]` (lines 113-115), instrumented with a hop budget:
`chase rmap fuel d = none` means the loop is still running after `fuel`
hops — so `∀ fuel, chase rmap fuel d = none` is non-termination — and
`some d'` is the loop's exit value.  The code itself imposes NO hop cap. -/
def chase (rmap : List (String × String)) : Nat → Option String → Option (Option String)
  | _, none => some none
  | 0, some d =>
    match dict_get rmap d with
    | none => some (some d)
    | some _ => none
  | f + 1, some d =>
    match dict_get rmap d with
    | none => some (some d)
    | some nxt => chase rmap f (some nxt)

/-- The per-title body of the result loop (lines 110-116): normalize the
title, look up its first destination, then chase the chain. -/
def resolve_title (data : BatchRedirectData) (fuel : Nat) (title : String) :
    Option (Option String) :=
  chase (redirect_map_of data) fuel
    (dict_get (redirect_map_of data) (canonical_of data title))

/-- The `api/_redirects.py _parse_batch_redirects` (lines 96-117) with a hop
budget per title: build the two maps, then store each requested title's
resolved destination (or `None`) in the result dict.  The whole parse is
`none` when some title's chase is still looping after `fuel` hops. -/
def _parse_batch_redirects (fuel : Nat) (data : BatchRedirectData)
    (titles : List String) : Option (List (String × Option String)) :=
  titles.foldlM
    (fun acc title => (resolve_title data fuel title).map (dict_insert acc title)) []

/-! ## Sparse matrices (`processing/_link_matrix.py`, `api/_matrix.py`) -/

/-- A `scipy.sparse` matrix built as
`coo_matrix((data, (rows, cols))).tocsr()` with all-ones data: kept as the
COO coordinate list.  The CSR conversion *sums* duplicate coordinates. -/
structure SparseMatrix where
  rows : Nat
  cols : Nat
  coords : List (Nat × Nat)
deriving DecidableEq

/-- The CSR entry at `(i, j)`: the number of occurrences of the coordinate
in the COO list (duplicates summed by `tocsr`). -/
def SparseMatrix.entry (m : SparseMatrix) (i j : Nat) : Nat :=
  m.coords.count (i, j)

/-- The `models.LinkMatrix`. -/
structure LinkMatrix where
  matrix : SparseMatrix
  row_labels : List String
  col_labels : List String
deriving DecidableEq

/-- The `models.CategoryMatrix`. -/
structure CategoryMatrix where
  matrix : SparseMatrix
  row_labels : List String
  col_labels : List String
deriving DecidableEq

/-- Lookup in `col_index = {name: i for i, name in enumerate(cols)}` with
index offset `n`: for the duplicate-free `cols` the builders construct, the
dict maps a name to its position. -/
def index_in (cols : List String) (t : String) (n : Nat) : Option Nat :=
  match cols with
  | [] => none
  | c :: cs => if c = t then some n else index_in cs t (n + 1)

/-- The COO coordinate list built by the double loop
`for i, source in enumerate(row_labels): for target in links[source]:
if target in col_index: rows.append(i); cols.append(col_index[target])`
(`_link_matrix.py` lines 36-42, `_matrix.py` lines 33-39); `i` is the
enumeration counter. -/
def coo_of (cols : List String) : List (String × List String) → Nat → List (Nat × Nat)
  | [], _ => []
  | kv :: rest, i =>
    kv.2.filterMap (fun t => (index_in cols t 0).map (fun j => (i, j)))
      ++ coo_of cols rest (i + 1)

/-- Lexicographic comparison of code-point sequences. -/
def charList_le : List Nat → List Nat → Bool
  | [], _ => true
  | _ :: _, [] => false
  | a :: as, b :: bs =>
    if a < b then true
    else if b < a then false
    else charList_le as bs

/-- Python's string ordering: lexicographic by code point. -/
def str_le (a b : String) : Bool :=
  charList_le (a.data.map Char.toNat) (b.data.map Char.toNat)

/-- The `sorted(col_set)`: the sorted deduplicated union of all target lists
(sorted by Python's code-point lexicographic string order). -/
def sorted_targets (links : List (String × List String)) : List String :=
  (((links.map Prod.snd).flatten).dedup).insertionSort (fun a b => str_le a b = true)

/-- The `processing/_link_matrix.py make_link_matrix` (lines 15-50). -/
def make_link_matrix (links : List (String × List String)) : LinkMatrix :=
  let row_labels := links.map Prod.fst
  let col_labels := sorted_targets links
  { matrix :=
      { rows := row_labels.length
        cols := col_labels.length
        coords := coo_of col_labels links 0 }
    row_labels := row_labels
    col_labels := col_labels }

/-- The `api/_matrix.py _build_matrix` (lines 26-47): the identical construction
for the category-member matrix. -/
def _build_matrix (member_map : List (String × List String)) : CategoryMatrix :=
  let row_labels := member_map.map Prod.fst
  let col_labels := sorted_targets member_map
  { matrix :=
      { rows := row_labels.length
        cols := col_labels.length
        coords := coo_of col_labels member_map 0 }
    row_labels := row_labels
    col_labels := col_labels }

/-! ## Seed similarity (`processing/_link_matrix.py compute_seed_similarity`) -/

/-- The `models.SeedSimilarity`, exactly the three fields declared in `models.py`
(lines 94-100); it does *not* declare `n_columns_removed` or
`n_columns_used`.  Scores are reals (cosines involve square roots); the
weight vectors stay exact rationals. -/
structure SeedSimilarity where
  scores : List (String × ℝ)
  page_weight : List ℚ
  target_vec : List ℚ

/-- Field names of the `SeedSimilarity` dataclass in `models.py`. -/
def SeedSimilarity_fields : List String := ["scores", "page_weight", "target_vec"]

/-- The keyword-argument names `compute_seed_similarity` passes to
`SeedSimilarity(...)` at both of its return points (`_link_matrix.py` lines
112-115 and 130-133). -/
def SeedSimilarity_call_kwargs : List String :=
  ["scores", "page_weight", "target_vec", "n_columns_removed", "n_columns_used"]

/-- Python dataclass construction for `SeedSimilarity`: raises `TypeError`
when a keyword argument does not name a declared field. -/
def SeedSimilarity_init (kwargs : List String) (v : SeedSimilarity) :
    Except PyErr SeedSimilarity :=
  if kwargs.all (fun k => decide (k ∈ SeedSimilarity_fields)) then .ok v
  else .error (.typeError "SeedSimilarity unexpected keyword argument")

/-- The `compute_seed_similarity` (lines 53-133): build per-column in-degree
vectors aligned with `col_labels`, drop columns with zero total in-degree,
weight the remaining columns by `in_seeds / in_all`, and score every row by
cosine similarity of its weighted link profile against the weight vector —
0.0 for all rows when the target vector has zero norm, and 0.0 for a row
whose weighted profile has zero norm (`nan_to_num` after the 0/0 division).
Both return points construct `SeedSimilarity(...)` passing
`n_columns_removed`/`n_columns_used` keyword arguments, which the dataclass
in `models.py` does not declare.  `seeds` is accepted but (as in the source)
not used by the computation. -/
noncomputable def compute_seed_similarity (seeds : List String) (lm : LinkMatrix)
    (in_degree_all in_degree_from_seeds : List (String × ℚ)) :
    Except PyErr SeedSimilarity :=
  let cols := lm.col_labels
  let in_all := cols.map (fun c => (dict_get in_degree_all c).getD 0)
  let in_seeds := cols.map (fun c => (dict_get in_degree_from_seeds c).getD 0)
  let keep := (List.range cols.length).filter (fun j => decide (0 < in_all.getD j 0))
  let page_weight := keep.map (fun j => in_seeds.getD j 0 / in_all.getD j 0)
  let target_vec := page_weight
  let target_norm_sq := (target_vec.map (fun w => w * w)).sum
  if target_norm_sq = 0 then
    SeedSimilarity_init SeedSimilarity_call_kwargs
      { scores := lm.row_labels.map (fun r => (r, (0 : ℝ)))
        page_weight := page_weight
        target_vec := target_vec }
  else
    let weighted_row : Nat → List ℚ := fun i =>
      (keep.zip page_weight).map (fun p => (lm.matrix.entry i p.1 : ℚ) * p.2)
    let dot : Nat → ℚ := fun i =>
      (((weighted_row i).zip target_vec).map (fun p => p.1 * p.2)).sum
    let row_norm_sq : Nat → ℚ := fun i => ((weighted_row i).map (fun w => w * w)).sum
    let score : Nat → ℝ := fun i =>
      if row_norm_sq i = 0 then 0
      else (dot i : ℝ) / (Real.sqrt (row_norm_sq i) * Real.sqrt (target_norm_sq))
    SeedSimilarity_init SeedSimilarity_call_kwargs
      { scores := (lm.row_labels.enum).map (fun p => (p.2, score p.1))
        page_weight := page_weight
        target_vec := target_vec }

/-! ## Concrete fixtures used by witnesses and counterexamples -/

/-- A well-formed page entry for an existing article. -/
def ok_page : ApiPage :=
  { missing := false
    title? := some "Real"
    extract? := some "Body text"
    length? := some 12
    pageid? := some 1 }

/-- A 2xx body for an existing article. -/
def ok_body : ApiBody := { query? := some { pages? := some [ok_page] } }

/-- A 2xx body whose sole page entry carries the `"missing"` marker. -/
def missing_page_body : ApiBody :=
  { query? := some { pages? := some [{ missing := true }] } }

/-- A transport script for a batch: the title `"Real"` resolves, every other
title returns a missing-page body. -/
def batch_fetch_script : String → List Outcome := fun t =>
  if t = "Real" then [.response 200 ok_body] else [.response 200 missing_page_body]

/-- A 2xx body whose `query.pages` dict has two entries, with the
`"missing"` marker only on the second. -/
def later_missing_body : ApiBody :=
  { query? := some { pages? := some [{}, { missing := true }] } }

/-- A category-members page carrying a `cmcontinue` token. -/
def cat_page1 : CatBody :=
  { categorymembers := some [⟨1, 0, "M1"⟩, ⟨2, 0, "M2"⟩]
    cont := some [("cmcontinue", "tok1")] }

/-- A final category-members page whose `continue` block is present but
lacks the `cmcontinue` key. -/
def cat_page2 : CatBody :=
  { categorymembers := some [⟨3, 0, "M3"⟩]
    cont := some [("other", "x")] }

/-! ## Theorems -/

/-! ## C1: retry bound of `api_get` / `api_get_async` -/

/-- The async retry loop is behaviourally identical to the sync one. -/
theorem api_get_async_loop_eq (cm : Bool) (t? : Option String) (l : String) :
    ∀ (outs : List Outcome) (attempt : Nat),
      api_get_async_loop cm t? l outs attempt = api_get_loop cm t? l outs attempt := by
  intro outs
  induction outs with
  | nil => intro attempt; rfl
  | cons o rest ih =>
    intro attempt
    cases o with
    | transient => simp [api_get_loop, api_get_async_loop, ih]
    | response status body => simp [api_get_loop, api_get_async_loop, ih]

/-- A retryable outcome before the last attempt just advances the loop. -/
theorem api_get_loop_retry_step (cm : Bool) (t? : Option String) (l : String)
    (o : Outcome) (rest : List Outcome) (attempt : Nat)
    (ho : o.retryable = true) (hlt : attempt < MAX_RETRIES) :
    api_get_loop cm t? l (o :: rest) attempt = api_get_loop cm t? l rest (attempt + 1) := by
  have hne : attempt ≠ MAX_RETRIES := Nat.ne_of_lt hlt
  cases o with
  | transient => simp [api_get_loop, hne]
  | response status body =>
    have h429 : (status == 429) = true := ho
    simp [api_get_loop, hne, h429]

/-- A retryable outcome on the last attempt surfaces the classified error. -/
theorem api_get_loop_exhausted (cm : Bool) (t? : Option String) (l : String)
    (o : Outcome) (rest : List Outcome) (ho : o.retryable = true) :
    api_get_loop cm t? l (o :: rest) MAX_RETRIES
      = (.error o.exhaustionError, MAX_RETRIES + 1) := by
  cases o with
  | transient => simp [api_get_loop, Outcome.exhaustionError]
  | response status body =>
    have h429 : (status == 429) = true := ho
    simp [api_get_loop, h429, Outcome.exhaustionError]

/-- A response passing both checks returns its body, consuming one attempt. -/
theorem api_get_loop_success (cm : Bool) (t? : Option String) (l : String)
    (status : Nat) (body : ApiBody) (rest : List Outcome) (attempt : Nat)
    (hh : _check_http_response status = none)
    (ha : _check_api_response body cm t? l = none) :
    api_get_loop cm t? l (.response status body :: rest) attempt = (.ok body, attempt + 1) := by
  have hlt : ¬ 400 ≤ status := by
    intro hge
    simp [_check_http_response, hge] at hh
  have h429 : (status == 429) = false := by
    have hne : status ≠ 429 := by omega
    simp [hne]
  simp [api_get_loop, h429, hh, ha]

/-- A prefix of retryable outcomes within the retry budget advances the
attempt counter by its length. -/
theorem api_get_loop_retry_chain (cm : Bool) (t? : Option String) (l : String) :
    ∀ (pre : List Outcome) (attempt : Nat), (∀ o ∈ pre, o.retryable = true) →
      attempt + pre.length ≤ MAX_RETRIES → ∀ rest,
      api_get_loop cm t? l (pre ++ rest) attempt
        = api_get_loop cm t? l rest (attempt + pre.length) := by
  intro pre
  induction pre with
  | nil => intro attempt _ _ rest; simp
  | cons o os ih =>
    intro attempt hall hle rest
    have ho := hall o (by simp)
    have hlt : attempt < MAX_RETRIES := by
      simp only [List.length_cons] at hle; omega
    have harith : attempt + 1 + os.length = attempt + (os.length + 1) := by omega
    rw [List.cons_append, api_get_loop_retry_step cm t? l o _ attempt ho hlt,
        ih (attempt + 1) (fun x hx => hall x (by simp [hx]))
          (by simp only [List.length_cons] at hle; omega) rest,
        harith]
    rfl

/-- C1: on a transport script whose first four outcomes are all HTTP 429 or
transient failures, `api_get` (and `api_get_async`) surfaces the error
classified from the fourth outcome (status 429, or status 0 for a transient
failure) after exactly `MAX_RETRIES + 1 = 4` attempts; on a script of at
most three retryable outcomes followed by a response that passes the HTTP
and API checks, it returns that response's parsed body after exactly
`N + 1` attempts — never partial or empty data. -/
theorem api_get_retry_bound :
    (∀ (a b c d : Outcome) (rest : List Outcome) (cm : Bool) (t? : Option String) (l : String),
      a.retryable = true → b.retryable = true → c.retryable = true → d.retryable = true →
      api_get (a :: b :: c :: d :: rest) cm t? l = (.error d.exhaustionError, 4) ∧
      api_get_async (a :: b :: c :: d :: rest) cm t? l = (.error d.exhaustionError, 4)) ∧
    (∀ (pre : List Outcome) (status : Nat) (body : ApiBody) (rest : List Outcome)
       (cm : Bool) (t? : Option String) (l : String),
      (∀ o ∈ pre, o.retryable = true) → pre.length ≤ MAX_RETRIES →
      _check_http_response status = none → _check_api_response body cm t? l = none →
      api_get (pre ++ .response status body :: rest) cm t? l = (.ok body, pre.length + 1) ∧
      api_get_async (pre ++ .response status body :: rest) cm t? l
        = (.ok body, pre.length + 1)) := by
  constructor
  · intro a b c d rest cm t? l ha hb hc hd
    have h : api_get (a :: b :: c :: d :: rest) cm t? l = (.error d.exhaustionError, 4) := by
      show api_get_loop cm t? l ([a, b, c] ++ d :: rest) 0 = _
      rw [api_get_loop_retry_chain cm t? l [a, b, c] 0
            (by intro o ho; simp at ho; rcases ho with h | h | h <;> simp [h, ha, hb, hc])
            (by simp [MAX_RETRIES]) (d :: rest)]
      simpa using api_get_loop_exhausted cm t? l d rest hd
    exact ⟨h, by rw [api_get_async, api_get_async_loop_eq]; exact h⟩
  · intro pre status body rest cm t? l hall hlen hh ha
    have h : api_get (pre ++ .response status body :: rest) cm t? l
        = (.ok body, pre.length + 1) := by
      show api_get_loop cm t? l (pre ++ .response status body :: rest) 0 = _
      rw [api_get_loop_retry_chain cm t? l pre 0 hall (by omega) _]
      simpa using api_get_loop_success cm t? l status body rest pre.length hh ha
    exact ⟨h, by rw [api_get_async, api_get_async_loop_eq]; exact h⟩

/-- Witness for C1: four transient failures exhaust to an HTTP-0 error in 4
attempts; one transient failure followed by a clean 200 response returns its
body in 2 attempts. -/
theorem api_get_retry_bound_witness :
    api_get [.transient, .transient, .transient, .transient] false none "en"
      = (.error (.http 0), 4) ∧
    api_get [.transient, .response 200 ok_body] false none "en" = (.ok ok_body, 2) := by
  constructor
  · exact (api_get_retry_bound.1 .transient .transient .transient .transient []
      false none "en" rfl rfl rfl rfl).1
  · exact (api_get_retry_bound.2 [.transient] 200 ok_body [] false none "en"
      (by decide) (by decide) (by decide) (by decide)).1

/-! ## C10: only the first `query.pages` entry is checked for `"missing"` -/

/-- C10: when missing-page checking is on and the body's `query.pages` dict
has several entries, only the first is inspected: a `"missing"` marker on a
later entry raises nothing, and `api_get` returns the body as a success. -/
theorem check_missing_first_page_only
    (p : ApiPage) (rest : List ApiPage) (t? : Option String) (l : String)
    (body : ApiBody) (hp : p.missing = false)
    (hb : body.error? = none) (hq : body.query? = some { pages? := some (p :: rest) })
    (hlater : ∃ q ∈ rest, q.missing = true) :
    _check_api_response body true t? l = none ∧
    api_get [.response 200 body] true t? l = (.ok body, 1) := by
  have hc : _check_api_response body true t? l = none := by
    simp [_check_api_response, hb, hq, hp]
  exact ⟨hc, by simpa using api_get_loop_success true t? l 200 body [] 0 (by decide) hc⟩

/-- Witness for C10: a two-entry pages dict whose second entry alone is
missing passes the check and is returned as a success. -/
theorem check_missing_first_page_only_witness :
    _check_api_response later_missing_body true (some "T") "en" = none ∧
    api_get [.response 200 later_missing_body] true (some "T") "en"
      = (.ok later_missing_body, 1) :=
  check_missing_first_page_only {} [{ missing := true }] (some "T") "en"
    later_missing_body rfl rfl rfl ⟨{ missing := true }, by simp⟩

/-! ## C5: paginated collectors concatenate pages in cursor order -/

/-- A response whose continuation block is absent, or lacks the endpoint's
key, stops the loop without any further fetch. -/
theorem paginate_loop_terminal {σ α : Type} (contOf : σ → Option (List (String × String)))
    (parse : σ → List α) (key : String) (last : σ)
    (h : cont_wants_more (contOf last) key = false) :
    ∀ rest, paginate_loop contOf parse key rest last = some [] := by
  intro rest
  cases rest with
  | nil => simp [paginate_loop, h]
  | cons r rs => simp [paginate_loop, h]

/-- Running the loop from a continuing page over a script of continuing
pages followed by a terminal one collects every page's items in order. -/
theorem paginate_loop_chain {σ α : Type} (contOf : σ → Option (List (String × String)))
    (parse : σ → List α) (key : String) :
    ∀ (pre : List σ) (data last : σ) (rest : List σ),
      (∀ x ∈ pre, cont_wants_more (contOf x) key = true) →
      cont_wants_more (contOf data) key = true →
      cont_wants_more (contOf last) key = false →
      paginate_loop contOf parse key (pre ++ last :: rest) data
        = some ((pre.map parse).flatten ++ parse last) := by
  intro pre
  induction pre with
  | nil =>
    intro data last rest _ hdata hlast
    simp [paginate_loop, hdata, paginate_loop_terminal contOf parse key last hlast]
  | cons x xs ih =>
    intro data last rest hall hdata hlast
    have hx := hall x (by simp)
    rw [List.cons_append]
    simp only [paginate_loop, hdata, if_true]
    rw [ih x last rest (fun y hy => hall y (by simp [hy])) hx hlast]
    simp [List.append_assoc]

/-- C5: for any finite response chain in which every page up to the last
carries the endpoint's continuation key and the last does not (its
`continue` block may be absent or merely lack the key), the collectors
return the concatenation of all pages' item lists in cursor order —
terminating normally, never raising. -/
theorem paginated_collect_concat :
    (∀ (pre : List CatBody) (last : CatBody) (rest : List CatBody),
      (∀ x ∈ pre, cont_wants_more x.cont "cmcontinue" = true) →
      cont_wants_more last.cont "cmcontinue" = false →
      get_category_members (pre ++ last :: rest)
        = some ((pre.map _parse_members).flatten ++ _parse_members last)) ∧
    (∀ (dir : LinkDirection) (pre : List LinkBody) (last : LinkBody) (rest : List LinkBody),
      (∀ x ∈ pre, cont_wants_more x.cont (continue_key dir) = true) →
      cont_wants_more last.cont (continue_key dir) = false →
      get_links dir (pre ++ last :: rest)
        = some ((pre.map (fun b => _parse_links b dir)).flatten ++ _parse_links last dir)) := by
  constructor
  · intro pre last rest hall hlast
    cases pre with
    | nil =>
      simp [get_category_members,
        paginate_loop_terminal CatBody.cont _parse_members "cmcontinue" last hlast]
    | cons r pre' =>
      have hr := hall r (by simp)
      show (paginate_loop CatBody.cont _parse_members "cmcontinue" (pre' ++ last :: rest) r).map _
        = _
      rw [paginate_loop_chain CatBody.cont _parse_members "cmcontinue" pre' r last rest
        (fun y hy => hall y (by simp [hy])) hr hlast]
      simp [List.append_assoc]
  · intro dir pre last rest hall hlast
    cases pre with
    | nil =>
      simp [get_links,
        paginate_loop_terminal LinkBody.cont (fun b => _parse_links b dir)
          (continue_key dir) last hlast]
    | cons r pre' =>
      have hr := hall r (by simp)
      show (paginate_loop LinkBody.cont (fun b => _parse_links b dir) (continue_key dir)
        (pre' ++ last :: rest) r).map _ = _
      rw [paginate_loop_chain LinkBody.cont (fun b => _parse_links b dir) (continue_key dir)
        pre' r last rest (fun y hy => hall y (by simp [hy])) hr hlast]
      simp [List.append_assoc]

/-- Witness for C5: two category pages, the second with a `continue` block
lacking `cmcontinue`, collect into the concatenated member list. -/
theorem paginated_collect_concat_witness :
    get_category_members [cat_page1, cat_page2]
      = some [⟨1, 0, "M1"⟩, ⟨2, 0, "M2"⟩, ⟨3, 0, "M3"⟩] :=
  (paginated_collect_concat.1 [cat_page1] cat_page2 [] (by decide) (by decide)).trans
    (by decide)

/-! ## C6: the rate limiter's token-count invariant -/

/-- One limiter step keeps the token count within `[0, burst]`. -/
theorem RLStep_inv (cfg : RateLimiter) (hr : 0 ≤ cfg.rate) (hb : 0 ≤ cfg.burst)
    (s s' : RLState) (hs : RLInv cfg s) (hstep : RLStep cfg s s') : RLInv cfg s' := by
  cases hstep with
  | refill now h =>
    refine ⟨?_, ?_⟩
    · show (0 : ℚ) ≤ min cfg.burst (s.tokens + (now - s.last_refill) * cfg.rate)
      exact le_min hb (add_nonneg hs.1 (mul_nonneg (sub_nonneg.mpr h) hr))
    · show min cfg.burst (s.tokens + (now - s.last_refill) * cfg.rate) ≤ cfg.burst
      exact min_le_left _ _
  | consume h =>
    refine ⟨?_, ?_⟩
    · show (0 : ℚ) ≤ s.tokens - 1
      linarith
    · show s.tokens - 1 ≤ cfg.burst
      have := hs.2
      linarith

/-- Any chain of limiter steps keeps the invariant. -/
theorem RLStep_star_inv (cfg : RateLimiter) (hr : 0 ≤ cfg.rate) (hb : 0 ≤ cfg.burst)
    (s s' : RLState) (hs : RLInv cfg s)
    (h : Relation.ReflTransGen (RLStep cfg) s s') : RLInv cfg s' := by
  induction h with
  | refl => exact hs
  | tail _ hstep ih => exact RLStep_inv cfg hr hb _ _ ih hstep

/-- The `acquire` only performs limiter steps: it reaches its post-refill state
by steps, succeeds only with at least one token available after the refill,
and consumes exactly one token. -/
theorem acquire_steps (cfg : RateLimiter) :
    ∀ (ts : List ℚ) (s : RLState), TimesOK s.last_refill ts →
      Relation.ReflTransGen (RLStep cfg) s (acquire cfg ts s).1 ∧
      (∀ sf, (acquire cfg ts s).2 = some sf →
        Relation.ReflTransGen (RLStep cfg) s sf ∧
        1 ≤ (acquire cfg ts s).1.tokens ∧
        sf.tokens = (acquire cfg ts s).1.tokens - 1) := by
  intro ts
  induction ts with
  | nil =>
    intro s _
    exact ⟨.refl, by intro sf h; simp [acquire] at h⟩
  | cons now ts ih =>
    intro s hts
    obtain ⟨h0, hrest⟩ := hts
    have hstep : RLStep cfg s (_refill cfg s now) := RLStep.refill s now h0
    by_cases htok : 1 ≤ (_refill cfg s now).tokens
    · have hacq : acquire cfg (now :: ts) s
          = (_refill cfg s now,
             some { tokens := (_refill cfg s now).tokens - 1,
                    last_refill := (_refill cfg s now).last_refill }) := by
        simp [acquire, htok]
      rw [hacq]
      refine ⟨Relation.ReflTransGen.single hstep, ?_⟩
      intro sf h
      obtain rfl : ({ tokens := (_refill cfg s now).tokens - 1,
                      last_refill := (_refill cfg s now).last_refill } : RLState) = sf := by
        simpa using h
      exact ⟨(Relation.ReflTransGen.single hstep).tail
        (RLStep.consume (_refill cfg s now) htok), htok, rfl⟩
    · have hacq : acquire cfg (now :: ts) s = acquire cfg ts (_refill cfg s now) := by
        simp [acquire, htok]
      have hts' : TimesOK (_refill cfg s now).last_refill ts := hrest
      obtain ⟨hstar, hcons⟩ := ih (_refill cfg s now) hts'
      rw [hacq]
      exact ⟨Relation.ReflTransGen.head hstep hstar, fun sf h =>
        ⟨Relation.ReflTransGen.head hstep ((hcons sf h).1), (hcons sf h).2.1, (hcons sf h).2.2⟩⟩

/-- The `acquire_async` computes exactly what `acquire` computes. -/
theorem acquire_async_eq (cfg : RateLimiter) :
    ∀ (ts : List ℚ) (s : RLState), acquire_async cfg ts s = acquire cfg ts s := by
  intro ts
  induction ts with
  | nil => intro s; rfl
  | cons now ts ih => intro s; simp [acquire, acquire_async, ih]

/-- C6: with nonnegative rate and capacity, the bucket invariant
`0 ≤ tokens ≤ burst` is preserved by every refill/consume step (hence by
any sequence of `acquire`/`acquire_async` calls at monotone clock
readings); `acquire` performs only such steps, returns only when the
post-refill state holds at least one token, and consumes exactly one; and
`acquire_async` is behaviourally identical to `acquire`. -/
theorem rate_limiter_tokens_invariant (cfg : RateLimiter)
    (hr : 0 ≤ cfg.rate) (hb : 0 ≤ cfg.burst) :
    (∀ s s', RLInv cfg s → Relation.ReflTransGen (RLStep cfg) s s' → RLInv cfg s') ∧
    (∀ (ts : List ℚ) (s : RLState), TimesOK s.last_refill ts →
      Relation.ReflTransGen (RLStep cfg) s (acquire cfg ts s).1 ∧
      (∀ sf, (acquire cfg ts s).2 = some sf →
        Relation.ReflTransGen (RLStep cfg) s sf ∧
        1 ≤ (acquire cfg ts s).1.tokens ∧
        sf.tokens = (acquire cfg ts s).1.tokens - 1)) ∧
    (∀ ts s, acquire_async cfg ts s = acquire cfg ts s) :=
  ⟨fun s s' hs h => RLStep_star_inv cfg hr hb s s' hs h,
   acquire_steps cfg,
   acquire_async_eq cfg⟩

/-- Witness for C6: the default configuration (rate 50, burst 10) from a
full bucket at time 0 hands out one token, leaving a valid state with 9
tokens. -/
theorem rate_limiter_tokens_invariant_witness :
    (acquire ⟨50, 10⟩ [0] ⟨10, 0⟩).2 = some ⟨9, 0⟩ ∧ RLInv ⟨50, 10⟩ ⟨9, 0⟩ := by
  have h := rate_limiter_tokens_invariant ⟨50, 10⟩ (by norm_num) (by norm_num)
  have heq : (acquire ⟨50, 10⟩ [0] ⟨10, 0⟩).2 = some ⟨9, 0⟩ := by
    norm_num [acquire, _refill]
  exact ⟨heq, h.1 ⟨10, 0⟩ ⟨9, 0⟩ ⟨by norm_num, by norm_num⟩
    ((h.2.1 [0] ⟨10, 0⟩ ⟨le_refl 0, trivial⟩).2 ⟨9, 0⟩ heq).1⟩

/-! ## Dict lemmas shared by the redirect theorems -/

theorem dict_get_map_replace {β : Type} (k : String) (v : β) :
    ∀ (m : List (String × β)), m.any (fun p => decide (p.1 = k)) = true →
      dict_get (m.map (fun p => if p.1 = k then (k, v) else p)) k = some v := by
  intro m
  induction m with
  | nil => intro h; simp at h
  | cons p rest ih =>
    intro h
    by_cases hp : p.1 = k
    · have hd : (if p.1 = k then (k, v) else p) = (k, v) := if_pos hp
      rw [List.map_cons, hd]
      simp [dict_get]
    · have h' : rest.any (fun p => decide (p.1 = k)) = true := by
        simpa [hp] using h
      have hd : (if p.1 = k then (k, v) else p) = p := if_neg hp
      rw [List.map_cons, hd]
      simp [dict_get, hp, ih h']

theorem dict_get_append_self {β : Type} (k : String) (v : β) :
    ∀ (m : List (String × β)), m.any (fun p => decide (p.1 = k)) = false →
      dict_get (m ++ [(k, v)]) k = some v := by
  intro m
  induction m with
  | nil => intro _; simp [dict_get]
  | cons p rest ih =>
    intro h
    simp only [List.any_cons, Bool.or_eq_false_iff, decide_eq_false_iff_not] at h
    simp [dict_get, h.1, ih h.2]

/-- The `d[k] = v` makes `d.get(k)` return `v`. -/
theorem dict_get_insert_self {β : Type} (m : List (String × β)) (k : String) (v : β) :
    dict_get (dict_insert m k v) k = some v := by
  unfold dict_insert
  by_cases h : m.any (fun p => decide (p.1 = k)) = true
  · simp only [h, if_true]
    exact dict_get_map_replace k v m h
  · have h' := eq_false_of_ne_true h
    simp only [h', if_false]
    exact dict_get_append_self k v m h'

theorem dict_get_map_replace_ne {β : Type} (k : String) (v : β) (t : String) (hne : k ≠ t) :
    ∀ (m : List (String × β)),
      dict_get (m.map (fun p => if p.1 = k then (k, v) else p)) t = dict_get m t := by
  intro m
  induction m with
  | nil => rfl
  | cons p rest ih =>
    by_cases hp : p.1 = k
    · have hd : (if p.1 = k then (k, v) else p) = (k, v) := if_pos hp
      rw [List.map_cons, hd]
      have hpt : ¬ p.1 = t := by rw [hp]; exact hne
      simp [dict_get, hne, hpt, ih]
    · have hd : (if p.1 = k then (k, v) else p) = p := if_neg hp
      rw [List.map_cons, hd]
      simp [dict_get, ih]

theorem dict_get_append_ne {β : Type} (k : String) (v : β) (t : String) (hne : k ≠ t) :
    ∀ (m : List (String × β)), dict_get (m ++ [(k, v)]) t = dict_get m t := by
  intro m
  induction m with
  | nil => simp [dict_get, hne]
  | cons p rest ih =>
    by_cases hp : p.1 = t <;> simp [dict_get, hp, ih]

/-- The `d[k] = v` leaves every other key's value unchanged. -/
theorem dict_get_insert_ne {β : Type} (m : List (String × β)) (k : String) (v : β)
    (t : String) (hne : k ≠ t) :
    dict_get (dict_insert m k v) t = dict_get m t := by
  unfold dict_insert
  by_cases h : m.any (fun p => decide (p.1 = k)) = true
  · simp only [h, if_true]
    exact dict_get_map_replace_ne k v t hne m
  · simp only [eq_false_of_ne_true h, if_false]
    exact dict_get_append_ne k v t hne m

theorem keys_map_replace {β : Type} (k : String) (v : β) (m : List (String × β)) :
    (m.map (fun p => if p.1 = k then (k, v) else p)).map Prod.fst = m.map Prod.fst := by
  induction m with
  | nil => rfl
  | cons p rest ih =>
    by_cases hp : p.1 = k
    · have hd : (if p.1 = k then (k, v) else p) = (k, v) := if_pos hp
      rw [List.map_cons, hd, List.map_cons, List.map_cons, ih]
      simp [hp]
    · have hd : (if p.1 = k then (k, v) else p) = p := if_neg hp
      rw [List.map_cons, hd, List.map_cons, List.map_cons, ih]

/-- The key set after an insert is the old key set plus the inserted key. -/
theorem mem_keys_insert {β : Type} (m : List (String × β)) (k : String) (v : β) (t : String) :
    t ∈ (dict_insert m k v).map Prod.fst ↔ t ∈ m.map Prod.fst ∨ t = k := by
  unfold dict_insert
  by_cases h : m.any (fun p => decide (p.1 = k)) = true
  · simp only [h, if_true, keys_map_replace]
    constructor
    · exact Or.inl
    · rintro (ht | rfl)
      · exact ht
      · rcases List.any_eq_true.mp h with ⟨p, hpmem, hpk⟩
        exact List.mem_map.mpr ⟨p, hpmem, of_decide_eq_true hpk⟩
  · simp [eq_false_of_ne_true h]

/-- Inserting preserves duplicate-freedom of the key set. -/
theorem nodup_keys_insert {β : Type} (m : List (String × β)) (k : String) (v : β)
    (h : (m.map Prod.fst).Nodup) : ((dict_insert m k v).map Prod.fst).Nodup := by
  unfold dict_insert
  by_cases ha : m.any (fun p => decide (p.1 = k)) = true
  · rw [if_pos ha, keys_map_replace]
    exact h
  · have hnot : k ∉ m.map Prod.fst := by
      intro hk
      rcases List.mem_map.mp hk with ⟨p, hp, hpk⟩
      exact ha (List.any_eq_true.mpr ⟨p, hp, decide_eq_true hpk⟩)
    rw [if_neg ha, List.map_append]
    show (List.map Prod.fst m ++ [k]).Nodup
    rw [List.Perm.nodup_iff (List.perm_append_singleton k (m.map Prod.fst))]
    exact List.nodup_cons.mpr ⟨hnot, h⟩

theorem dict_get_mem_keys {β : Type} (t : String) (v : β) :
    ∀ (m : List (String × β)), dict_get m t = some v → t ∈ m.map Prod.fst := by
  intro m
  induction m with
  | nil => intro h; simp [dict_get] at h
  | cons p rest ih =>
    intro h
    by_cases hp : p.1 = t
    · simp [hp]
    · simp only [dict_get, hp, if_false] at h
      simp [ih h]

/-! ## Chase lemmas shared by C3 and C4 -/

/-- A `None` destination (no redirect entry) exits the chase loop at once. -/
theorem chase_none (rmap : List (String × String)) (fuel : Nat) :
    chase rmap fuel none = some none := by
  cases fuel <;> rfl

/-- A destination with no further mapping exits the loop with itself. -/
theorem chase_lookup_none (rmap : List (String × String)) (fuel : Nat) (x : String)
    (hg : dict_get rmap x = none) : chase rmap fuel (some x) = some (some x) := by
  cases fuel with
  | zero =>
    show (match dict_get rmap x with
          | none => some (some x)
          | some _ => (none : Option (Option String))) = some (some x)
    rw [hg]
  | succ f =>
    show (match dict_get rmap x with
          | none => some (some x)
          | some nxt => chase rmap f (some nxt)) = some (some x)
    rw [hg]

/-- With no hops left and a further mapping pending, the loop is still
running. -/
theorem chase_zero_lookup_some (rmap : List (String × String)) (x nxt : String)
    (hg : dict_get rmap x = some nxt) : chase rmap 0 (some x) = none := by
  show (match dict_get rmap x with
        | none => some (some x)
        | some _ => (none : Option (Option String))) = none
  rw [hg]

/-- One hop of the loop follows the mapping. -/
theorem chase_succ_lookup_some (rmap : List (String × String)) (f : Nat) (x nxt : String)
    (hg : dict_get rmap x = some nxt) :
    chase rmap (f + 1) (some x) = chase rmap f (some nxt) := by
  show (match dict_get rmap x with
        | none => some (some x)
        | some nxt => chase rmap f (some nxt)) = chase rmap f (some nxt)
  rw [hg]

/-- When the chase completes, its result has no further redirect entry: it
is the final destination of the chain. -/
theorem chase_final (rmap : List (String × String)) :
    ∀ (fuel : Nat) (d : Option String) (r : String),
      chase rmap fuel d = some (some r) → dict_get rmap r = none := by
  intro fuel
  induction fuel with
  | zero =>
    intro d r h
    cases d with
    | none => rw [chase_none] at h; simp at h
    | some x =>
      cases hg : dict_get rmap x with
      | none =>
        rw [chase_lookup_none rmap 0 x hg] at h
        have hx : x = r := by simpa using h
        rw [← hx]; exact hg
      | some nxt =>
        rw [chase_zero_lookup_some rmap x nxt hg] at h
        simp at h
  | succ f ih =>
    intro d r h
    cases d with
    | none => rw [chase_none] at h; simp at h
    | some x =>
      cases hg : dict_get rmap x with
      | none =>
        rw [chase_lookup_none rmap (f + 1) x hg] at h
        have hx : x = r := by simpa using h
        rw [← hx]; exact hg
      | some nxt =>
        rw [chase_succ_lookup_some rmap f x nxt hg] at h
        exact ih (some nxt) r h

/-- On the cyclic table `{A→B, B→A}` the chase never exits, whatever the hop
budget. -/
theorem chase_cyc (fuel : Nat) :
    chase [("A", "B"), ("B", "A")] fuel (some "A") = none ∧
    chase [("A", "B"), ("B", "A")] fuel (some "B") = none := by
  induction fuel with
  | zero => exact ⟨rfl, rfl⟩
  | succ f ih =>
    constructor
    · show chase [("A", "B"), ("B", "A")] f (some "B") = none
      exact ih.2
    · show chase [("A", "B"), ("B", "A")] f (some "A") = none
      exact ih.1

/-! ## C3: the redirect chase has no hop cap -/

/-- Counterexample for C3: on the cyclic redirect table `{A→B, B→A}` the
batch parse of title `"A"` is still chasing after 21 hops — beyond the
claimed 20-hop cap — with no distinct error surfaced; the code's `while`
loop simply never terminates. -/
theorem redirect_chase_cap_counterexample :
    _parse_batch_redirects 21 ⟨[⟨"A", "B"⟩, ⟨"B", "A"⟩], []⟩ ["A"] = none := by
  decide

/-- C3 (amended): the chain chase in `_parse_batch_redirects` has no
defensive hop cap: on a cyclic redirect table an affected title is still
unresolved after any number of hops (the loop runs forever), while whenever
the chase does complete its result is a title with no further redirect
entry. -/
theorem redirect_chase_uncapped :
    (∀ fuel, _parse_batch_redirects fuel ⟨[⟨"A", "B"⟩, ⟨"B", "A"⟩], []⟩ ["A"] = none) ∧
    (∀ (rmap : List (String × String)) (fuel : Nat) (d : Option String) (r : String),
      chase rmap fuel d = some (some r) → dict_get rmap r = none) := by
  constructor
  · intro fuel
    have hres : resolve_title ⟨[⟨"A", "B"⟩, ⟨"B", "A"⟩], []⟩ fuel "A" = none := by
      show chase [("A", "B"), ("B", "A")] fuel (some "B") = none
      exact (chase_cyc fuel).2
    unfold _parse_batch_redirects
    rw [List.foldlM_cons, hres]
    rfl
  · exact fun rmap fuel d r h => chase_final rmap fuel d r h

/-- Witness for C3's amended theorem: a chase that completes lands on a
title with no redirect entry. -/
theorem redirect_chase_uncapped_witness :
    dict_get [("A", "B"), ("B", "C")] "C" = none :=
  redirect_chase_uncapped.2 [("A", "B"), ("B", "C")] 5 (some "A") "C" (by decide)

/-! ## C4: batch redirect resolution on terminating chains -/

/-- The fold of `_parse_batch_redirects` over the requested titles, with an
arbitrary accumulator dict. -/
theorem parse_fold_spec (data : BatchRedirectData) (fuel : Nat) :
    ∀ (titles : List String) (acc : List (String × Option String)),
      (∀ t ∈ titles, resolve_title data fuel t ≠ none) →
      ∃ res,
        List.foldlM
          (fun acc title => (resolve_title data fuel title).map (dict_insert acc title))
          acc titles = some res ∧
        (∀ t, t ∈ titles → dict_get res t = resolve_title data fuel t) ∧
        (∀ t, t ∉ titles → dict_get res t = dict_get acc t) ∧
        (∀ t, t ∈ res.map Prod.fst ↔ t ∈ acc.map Prod.fst ∨ t ∈ titles) ∧
        ((acc.map Prod.fst).Nodup → (res.map Prod.fst).Nodup) := by
  intro titles
  induction titles with
  | nil =>
    intro acc _
    exact ⟨acc, rfl, by simp, fun t _ => rfl, by simp, id⟩
  | cons u ts ih =>
    intro acc hall
    obtain ⟨du, hdu⟩ : ∃ du, resolve_title data fuel u = some du := by
      cases h : resolve_title data fuel u with
      | none => exact absurd h (hall u (by simp))
      | some du => exact ⟨du, rfl⟩
    obtain ⟨res, hres, h1, h2, h3, h4⟩ :=
      ih (dict_insert acc u du) (fun t ht => hall t (by simp [ht]))
    refine ⟨res, ?_, ?_, ?_, ?_, ?_⟩
    · rw [List.foldlM_cons, hdu]
      exact hres
    · intro t ht
      rcases List.mem_cons.mp ht with rfl | hts
      · by_cases htts : t ∈ ts
        · exact h1 t htts
        · rw [h2 t htts, dict_get_insert_self]
          exact hdu.symm
      · exact h1 t hts
    · intro t ht
      have htu : t ≠ u := fun h => ht (by simp [h])
      have htts : t ∉ ts := fun h => ht (by simp [h])
      rw [h2 t htts, dict_get_insert_ne acc u du t (Ne.symm htu)]
    · intro t
      rw [h3 t, mem_keys_insert]
      simp only [List.mem_cons]
      tauto
    · intro hnd
      exact h4 (nodup_keys_insert acc u du hnd)

/-- C4: on a redirect table whose chains all terminate within the hop
budget, `_parse_batch_redirects` maps each requested (normalized) title to
the final destination of its chain, maps titles with no redirect entry to
`None`, lists each requested title exactly once, and resolves the concrete
table `{A→B, B→C}` with titles `[A, B, C]` to `A→C, B→C, C→None`. -/
theorem parse_batch_redirects_resolution :
    (∀ (fuel : Nat) (data : BatchRedirectData) (titles : List String),
      (∀ t ∈ titles, resolve_title data fuel t ≠ none) →
      ∃ res, _parse_batch_redirects fuel data titles = some res ∧
        (∀ t ∈ titles, dict_get res t = resolve_title data fuel t) ∧
        (∀ t ∈ titles, dict_get (redirect_map_of data) (canonical_of data t) = none →
          dict_get res t = some none) ∧
        (∀ t r, dict_get res t = some (some r) →
          dict_get (redirect_map_of data) r = none) ∧
        (res.map Prod.fst).Nodup ∧
        (∀ t, t ∈ res.map Prod.fst ↔ t ∈ titles)) ∧
    _parse_batch_redirects 20 ⟨[⟨"A", "B"⟩, ⟨"B", "C"⟩], []⟩ ["A", "B", "C"]
      = some [("A", some "C"), ("B", some "C"), ("C", none)] := by
  constructor
  · intro fuel data titles hall
    obtain ⟨res, hres, h1, h2, h3, h4⟩ := parse_fold_spec data fuel titles [] hall
    refine ⟨res, hres, fun t ht => h1 t ht, ?_, ?_, ?_, ?_⟩
    · intro t ht hnone
      rw [h1 t ht]
      unfold resolve_title
      rw [hnone]
      exact chase_none _ _
    · intro t r hget
      have hmem : t ∈ res.map Prod.fst := dict_get_mem_keys t _ res hget
      have htitles : t ∈ titles := by simpa using (h3 t).mp hmem
      have hr := h1 t htitles
      rw [hget] at hr
      unfold resolve_title at hr
      exact chase_final (redirect_map_of data) fuel _ r hr.symm
    · exact h4 (by simp)
    · intro t
      rw [h3 t]
      simp
  · decide

/-- Witness for C4: table `{X→Y}` with requested titles `[X, Z]` satisfies
the termination hypothesis and the resolution conclusions. -/
theorem parse_batch_redirects_resolution_witness :
    ∃ res, _parse_batch_redirects 3 ⟨[⟨"X", "Y"⟩], []⟩ ["X", "Z"] = some res ∧
      (∀ t ∈ ["X", "Z"], dict_get res t = resolve_title ⟨[⟨"X", "Y"⟩], []⟩ 3 t) ∧
      (∀ t ∈ ["X", "Z"],
        dict_get (redirect_map_of ⟨[⟨"X", "Y"⟩], []⟩)
          (canonical_of ⟨[⟨"X", "Y"⟩], []⟩ t) = none → dict_get res t = some none) ∧
      (∀ t r, dict_get res t = some (some r) →
        dict_get (redirect_map_of ⟨[⟨"X", "Y"⟩], []⟩) r = none) ∧
      (res.map Prod.fst).Nodup ∧
      (∀ t, t ∈ res.map Prod.fst ↔ t ∈ ["X", "Z"]) :=
  parse_batch_redirects_resolution.1 3 ⟨[⟨"X", "Y"⟩], []⟩ ["X", "Z"] (by decide)

/-! ## Matrix lemmas shared by the C2 theorems -/

/-- The `index_in` never returns an index below its offset. -/
theorem index_in_ge : ∀ (cols : List String) (t : String) (n i : Nat),
    index_in cols t n = some i → n ≤ i := by
  intro cols
  induction cols with
  | nil => intro t n i h; simp [index_in] at h
  | cons c cs ih =>
    intro t n i h
    by_cases hc : c = t
    · simp [index_in, hc] at h
      omega
    · have := ih t (n + 1) i (by simpa [index_in, hc] using h)
      omega

/-- The index returned by `index_in` points at the looked-up name. -/
theorem index_in_some_get : ∀ (cols : List String) (n : Nat) (t : String) (j : Nat),
    index_in cols t n = some (n + j) →
    ∃ hj : j < cols.length, cols.get ⟨j, hj⟩ = t := by
  intro cols
  induction cols with
  | nil => intro n t j h; simp [index_in] at h
  | cons c cs ih =>
    intro n t j h
    by_cases hc : c = t
    · simp [index_in, hc] at h
      have hj0 : j = 0 := by omega
      subst hj0
      exact ⟨by simp, by simpa using hc⟩
    · have hge := index_in_ge cs t (n + 1) (n + j) (by simpa [index_in, hc] using h)
      obtain ⟨j', rfl⟩ : ∃ j', j = j' + 1 := ⟨j - 1, by omega⟩
      have h' : index_in cs t (n + 1) = some ((n + 1) + j') := by
        have harith : n + (j' + 1) = (n + 1) + j' := by omega
        rw [← harith]
        simpa [index_in, hc] using h
      obtain ⟨hj', hget⟩ := ih (n + 1) t j' h'
      exact ⟨by simpa using hj', by simpa using hget⟩

/-- On a duplicate-free list, `index_in` finds the position of a member. -/
theorem index_in_of_get : ∀ (cols : List String), cols.Nodup →
    ∀ (n j : Nat) (hj : j < cols.length) (t : String),
      cols.get ⟨j, hj⟩ = t → index_in cols t n = some (n + j) := by
  intro cols
  induction cols with
  | nil => intro _ n j hj; simp at hj
  | cons c cs ih =>
    intro hnd n j hj t hget
    rcases List.nodup_cons.mp hnd with ⟨hcn, hnd'⟩
    cases j with
    | zero =>
      have hc : c = t := by simpa using hget
      simp [index_in, hc]
    | succ j' =>
      have hj'' : j' < cs.length := by simpa using hj
      have hget' : cs.get ⟨j', hj''⟩ = t := by simpa using hget
      have hc : ¬ c = t := by
        intro hc
        apply hcn
        have : t ∈ cs := by
          rw [← hget']
          exact List.get_mem cs _ _
        rwa [hc]
      have hrec := ih hnd' (n + 1) j' hj'' t hget'
      have harith : (n + 1) + j' = n + (j' + 1) := by omega
      simp [index_in, hc, hrec, harith]

/-- The builders' column labels are duplicate-free. -/
theorem sorted_targets_nodup (links : List (String × List String)) :
    (sorted_targets links).Nodup := by
  unfold sorted_targets
  have h1 : (((links.map Prod.snd).flatten).dedup).Nodup := List.nodup_dedup _
  exact (List.Perm.nodup_iff
    (List.perm_insertionSort (fun a b => str_le a b = true)
      (((links.map Prod.snd).flatten).dedup))).mpr h1

/-- Counting a coordinate among one source row's emitted pairs. -/
theorem count_row_pairs (cols : List String) (k i j : Nat) :
    ∀ (targets : List String),
      ((targets.filterMap (fun t => (index_in cols t 0).map (fun m => (k, m)))).count (i, j))
        = if k = i then
            (targets.filter (fun t => decide (index_in cols t 0 = some j))).length
          else 0 := by
  intro targets
  induction targets with
  | nil => by_cases hk : k = i <;> simp [hk]
  | cons t ts ih =>
    cases hidx : index_in cols t 0 with
    | none =>
      simp only [List.filterMap_cons, hidx, Option.map_none', List.filter_cons]
      by_cases hk : k = i <;> simp [hk, ih] <;> simp [hk] at ih <;> simp [ih]
    | some m =>
      simp only [List.filterMap_cons, hidx, Option.map_some', List.filter_cons]
      by_cases hk : k = i
      · subst hk
        by_cases hm : m = j
        · subst hm
          simp only [List.count_cons]
          simp [ih]
        · have hne : ((k, m) : Nat × Nat) ≠ (k, j) := by
            intro hcontra
            exact hm (by injection hcontra)
          simp only [List.count_cons]
          simp [hne, hm, ih]
      · have hne : ((k, m) : Nat × Nat) ≠ (i, j) := by
          intro hcontra
          exact hk (by injection hcontra)
        simp only [List.count_cons]
        simp [hne, hk, ih]

/-- Coordinates with a row index below the enumeration offset never occur. -/
theorem coo_count_lt (cols : List String) (i j : Nat) :
    ∀ (links : List (String × List String)) (n : Nat), i < n →
      (coo_of cols links n).count (i, j) = 0 := by
  intro links
  induction links with
  | nil => intro n _; simp [coo_of]
  | cons kv rest ih =>
    intro n hin
    simp only [coo_of, List.count_append]
    rw [count_row_pairs cols n i j kv.2, if_neg (by omega), ih (n + 1) (by omega)]

/-- The CSR entry at `(n + k, j)` counts, within row `k`'s target list, the
targets whose column index is `j`. -/
theorem coo_count (cols : List String) (j : Nat) :
    ∀ (links : List (String × List String)) (n k : Nat) (hk : k < links.length),
      (coo_of cols links n).count (n + k, j)
        = ((links.get ⟨k, hk⟩).2.filter
            (fun t => decide (index_in cols t 0 = some j))).length := by
  intro links
  induction links with
  | nil => intro n k hk; simp at hk
  | cons kv rest ih =>
    intro n k hk
    cases k with
    | zero =>
      simp only [coo_of, List.count_append]
      rw [count_row_pairs cols n (n + 0) j kv.2, if_pos (by omega),
        coo_count_lt cols (n + 0) j rest (n + 1) (by omega)]
      simp
    | succ k' =>
      simp only [coo_of, List.count_append]
      rw [count_row_pairs cols n (n + (k' + 1)) j kv.2, if_neg (by omega)]
      have harith : n + (k' + 1) = (n + 1) + k' := by omega
      rw [harith, ih (n + 1) k' (by simpa using hk)]
      simp

/-- For a duplicate-free column list, selecting targets by column index `j`
is counting occurrences of the `j`-th column label. -/
theorem filter_index_eq_count (cols : List String) (hnd : cols.Nodup) (j : Nat)
    (hj : j < cols.length) (targets : List String) :
    (targets.filter (fun t => decide (index_in cols t 0 = some j))).length
      = targets.count (cols.get ⟨j, hj⟩) := by
  have hpred : ∀ t ∈ targets,
      (decide (index_in cols t 0 = some j)) = (t == cols.get ⟨j, hj⟩) := by
    intro t _
    by_cases ht : t = cols.get ⟨j, hj⟩
    · have hidx : index_in cols t 0 = some (0 + j) :=
        index_in_of_get cols hnd 0 j hj t ht.symm
      rw [Nat.zero_add] at hidx
      rw [hidx]
      simp [ht]
    · have hnot : ¬ index_in cols t 0 = some j := by
        intro h
        obtain ⟨hj', hget⟩ := index_in_some_get cols 0 t j (by simpa using h)
        exact ht hget.symm
      have h1 : decide (index_in cols t 0 = some j) = false := by
        simp [hnot]
      have h2 : (t == cols.get ⟨j, hj⟩) = false := by
        simp only [beq_eq_false_iff_ne, ne_eq]
        exact ht
      rw [h1, h2]
  rw [List.filter_congr hpred]
  simp [List.count, List.countP_eq_length_filter]

/-! ## C2: the matrix builders sum duplicate targets -/

/-- Counterexample for C2: with the repeated target list `["X", "X"]` the
link-matrix cell holds the multiplicity 2, not 1 — `coo_matrix(...).tocsr()`
sums duplicate coordinates. -/
theorem make_link_matrix_dup_counterexample :
    (make_link_matrix [("A", ["X", "X"])]).matrix.entry 0 0 = 2 ∧
    ¬ (make_link_matrix [("A", ["X", "X"])]).matrix.entry 0 0 = 1 := by
  decide

/-- C2 (amended): both matrix builders yield cell `(i, j)` equal to the
*multiplicity* of column `j`'s label in row `i`'s target list (so the cell
is 1 exactly for a single occurrence, and the matrix is binary only when no
row repeats a target). -/
theorem matrix_cell_counts_multiplicity :
    (∀ (links : List (String × List String)) (i j : Nat) (hi : i < links.length)
       (hj : j < (make_link_matrix links).col_labels.length),
      (make_link_matrix links).matrix.entry i j
        = (links.get ⟨i, hi⟩).2.count ((make_link_matrix links).col_labels.get ⟨j, hj⟩)) ∧
    (∀ (member_map : List (String × List String)) (i j : Nat)
       (hi : i < member_map.length)
       (hj : j < (_build_matrix member_map).col_labels.length),
      (_build_matrix member_map).matrix.entry i j
        = (member_map.get ⟨i, hi⟩).2.count
            ((_build_matrix member_map).col_labels.get ⟨j, hj⟩)) := by
  constructor
  · intro links i j hi hj
    show (coo_of (sorted_targets links) links 0).count (i, j) = _
    have hcnt := coo_count (sorted_targets links) j links 0 i hi
    rw [Nat.zero_add] at hcnt
    rw [hcnt, filter_index_eq_count (sorted_targets links) (sorted_targets_nodup links)
      j hj ((links.get ⟨i, hi⟩).2)]
    rfl
  · intro member_map i j hi hj
    show (coo_of (sorted_targets member_map) member_map 0).count (i, j) = _
    have hcnt := coo_count (sorted_targets member_map) j member_map 0 i hi
    rw [Nat.zero_add] at hcnt
    rw [hcnt, filter_index_eq_count (sorted_targets member_map)
      (sorted_targets_nodup member_map) j hj ((member_map.get ⟨i, hi⟩).2)]
    rfl

/-- Witness for C2's amended theorem: a single occurrence yields cell 1 in
the link matrix, and a doubled category member yields cell 2 in the
category matrix. -/
theorem matrix_cell_counts_multiplicity_witness :
    (make_link_matrix [("A", ["X", "Y"]), ("B", ["X"])]).matrix.entry 1 0 = 1 ∧
    (_build_matrix [("C", ["M", "M", "N"])]).matrix.entry 0 0 = 2 := by
  constructor
  · exact (matrix_cell_counts_multiplicity.1 [("A", ["X", "Y"]), ("B", ["X"])] 1 0
      (by decide) (by decide)).trans (by decide)
  · exact (matrix_cell_counts_multiplicity.2 [("C", ["M", "M", "N"])] 0 0
      (by decide) (by decide)).trans (by decide)

/-! ## C9: `_parse_article` and the truncation heuristic -/

/-- C9: the truncation flag computed by `_parse_article` matches the
heuristic "trailing ellipsis, or extract shorter than 50% of the reported
wikitext length" — but the `Article(...)` construction itself raises
`TypeError` on every successful fetch, because the `Article` dataclass in
`models.py` does not declare the `possibly_truncated`/`wikitext_length`
keyword arguments that `_parse_article` passes. -/
theorem parse_article_truncation_typeerror :
    (∀ (text : String) (l : Nat),
      (truncation_flag text (some l) = true ↔
        (text.endsWith "..." = true ∨ (0 < l ∧ 2 * text.length < l))) ∧
      (truncation_flag text none = true ↔ text.endsWith "..." = true)) ∧
    _parse_article ok_body "Real" "en"
      = .error (.typeError "Article unexpected keyword argument") := by
  constructor
  · intro text l
    constructor
    · unfold truncation_flag
      by_cases he : text.endsWith "..." <;> simp [he]
    · unfold truncation_flag
      by_cases he : text.endsWith "..." <;> simp [he]
  · rfl

/-! ## C7: batch fetch aborts on the `Article` constructor bug -/

/-- C7: on the batch `["Real", "Fake1", "Fake2"]` where `"Real"` resolves
and the others are missing pages, the batch does *not* return a result with
one success and two missing titles: fetching `"Real"` raises `TypeError`
from the `Article(...)` construction (the dataclass in `models.py` lacks the
passed fields), and that non-`PageNotFoundError` error aborts the whole
batch.  Only a batch with no resolvable title at all (every fetch raising
`PageNotFoundError`) reaches the missing-list bookkeeping. -/
theorem get_articles_batch_aborts :
    _get_articles_async_impl batch_fetch_script ["Real", "Fake1", "Fake2"] "en"
      = .error (.typeError "Article unexpected keyword argument") ∧
    _get_articles_async_impl batch_fetch_script ["Fake1", "Fake2"] "en"
      = .ok { articles := [], missing := ["Fake1", "Fake2"] } := by
  exact ⟨rfl, rfl⟩

/-! ## C8: `compute_seed_similarity` raises on construction -/

/-- Constructing `SeedSimilarity(...)` with the keyword arguments used by
`compute_seed_similarity` always raises `TypeError`: the dataclass does not
declare `n_columns_removed`/`n_columns_used`. -/
theorem SeedSimilarity_init_kwargs (v : SeedSimilarity) :
    SeedSimilarity_init SeedSimilarity_call_kwargs v
      = .error (.typeError "SeedSimilarity unexpected keyword argument") := by
  unfold SeedSimilarity_init
  rw [if_neg (by decide)]

/-- C8: `compute_seed_similarity` raises `TypeError` on *every* input — both
its return points construct `SeedSimilarity(...)` with keyword arguments the
dataclass in `models.py` does not declare — and in particular on the
all-zero-in-degree input, where the claim expects it to return all-0.0
scores without raising. -/
theorem compute_seed_similarity_typeerror :
    (∀ (seeds : List String) (lm : LinkMatrix) (ida ids : List (String × ℚ)),
      compute_seed_similarity seeds lm ida ids
        = .error (.typeError "SeedSimilarity unexpected keyword argument")) ∧
    compute_seed_similarity ["A"] (make_link_matrix [("A", ["X", "Y"]), ("B", ["X"])])
        [("X", 0), ("Y", 0)] [("X", 0), ("Y", 0)]
      = .error (.typeError "SeedSimilarity unexpected keyword argument") := by
  have hgen : ∀ (seeds : List String) (lm : LinkMatrix) (ida ids : List (String × ℚ)),
      compute_seed_similarity seeds lm ida ids
        = .error (.typeError "SeedSimilarity unexpected keyword argument") := by
    intro seeds lm ida ids
    unfold compute_seed_similarity
    dsimp only
    split
    · exact SeedSimilarity_init_kwargs _
    · exact SeedSimilarity_init_kwargs _
  exact ⟨hgen, hgen _ _ _ _⟩

end WCorpus
